import Mathlib

/-!
Verification development for the `node-darts` native layer.

The repository's own code under `src/native` is the binding layer:
`builder.cpp` (the `Build` entry point: key marshalling, sort, adjacent
dedup, default values, core invocation, handle publication),
`dictionary.cpp` (per-operation entry points: handle validation, the
traverse loop, the common-prefix result cap) and `bindings.cpp` (the
global handle table `g_dictionaries` with `GetDictionaryFromHandle`,
`AddDictionary`, `RemoveDictionary`).

The double-array core itself (`third_party/darts/darts.h`,
`Darts::DoubleArray`) is not part of the visible sources; its operations
(`build`, `exactMatchSearch`, `commonPrefixSearch`, `traverse`, `size`)
are modelled from the specification and marked as such in their doc
comments.  Keys are raw byte sequences, embedded as `List Nat`.
-/

namespace NodeDarts

/-- Keys are treated as raw byte sequences (spec §1); `std::string`
contents in the binding are embedded as lists of byte values. -/
abbrev ByteStr := List Nat

/-- Lexicographic byte-wise strict order on keys: the order used by
`std::sort(keys.begin(), keys.end())` in `builder.cpp` (`std::string`
`operator<` compares byte by byte, shorter prefix first). -/
def bsLt : ByteStr → ByteStr → Bool
  | [], [] => false
  | [], _ :: _ => true
  | _ :: _, [] => false
  | a :: as, b :: bs => if a < b then true else if b < a then false else bsLt as bs

/-- Non-strict byte-wise lexicographic order, `a ≤ b ↔ ¬ b < a`. -/
def bsLe (a b : ByteStr) : Bool := !(bsLt b a)

/-- Ordered insertion of one key; folding it embeds the effect of
`std::sort` on the key vector in `builder.cpp` (the output is the
non-decreasing reordering of the input, which is unique up to equal
elements). -/
def insertLe (k : ByteStr) : List ByteStr → List ByteStr
  | [] => [k]
  | x :: xs => if bsLe k x then k :: x :: xs else x :: insertLe k xs

/-- The sorted key vector after `std::sort` in `builder.cpp`. -/
def sortKeys (l : List ByteStr) : List ByteStr := l.foldr insertLe []

/-- Adjacent-duplicate removal: `std::unique` + `erase` in `builder.cpp`. -/
def uniqueAdj : List ByteStr → List ByteStr
  | [] => []
  | [x] => [x]
  | x :: y :: rest => if x = y then uniqueAdj (y :: rest) else x :: uniqueAdj (y :: rest)

/-- The key vector after the sort and dedup steps of `Build`
(`builder.cpp` lines 39-46). -/
def sortDedup (l : List ByteStr) : List ByteStr := uniqueAdj (sortKeys l)

/-- A dictionary instance (`Darts::DoubleArray`, aliased `DartsDict`).
Modelled from the spec: the packed double-array trie is represented by
the association of stored keys to their int32 values (spec §3 "Key
Set", §8 "Exactness": search behaviour is determined by this map), plus
`unitCount`, the packed array's unit count reported by `size()` (spec
§4.2); the exact unit count of the missing core is an implementation
detail, modelled here as a fixed deterministic function of the key set. -/
structure DartsDict where
  entries : List (ByteStr × Int)
  unitCount : Nat
deriving DecidableEq

/-- Strict-sortedness check on the key list handed to the core.
Modelled from the spec: `build` "fails with BuildError ... if keys is
not strictly sorted" (spec §4.1). -/
def strictlySortedB : List ByteStr → Bool
  | [] => true
  | [_] => true
  | a :: b :: rest => bsLt a b && strictlySortedB (b :: rest)

/-- Core construction, `Darts::DoubleArray::build`.  Modelled from the
spec (the core is in the missing `third_party/darts/darts.h`): fails on
an empty key set, on an empty-string key (spec §4.1 and §9: unsupported),
on input that is not strictly sorted, and on a value outside
`[0, INT32_MAX - 1]` (spec §4.1 numeric policy); otherwise the resulting
packed array stores exactly the given key/value pairs (spec §8
"Exactness").  The unit count stands in for the packed array length. -/
def dartsBuild (keys : List ByteStr) (values : List Int) : Except String DartsDict :=
  if keys.isEmpty then .error "BuildError"
  else if keys.any (fun k => k.isEmpty) then .error "BuildError"
  else if !(strictlySortedB keys) then .error "BuildError"
  else if values.any (fun v => decide (v < 0) || decide (2147483646 < v)) then .error "ValueRangeError"
  else .ok ⟨keys.zip values, 1 + keys.foldl (fun a k => a + k.length + 1) 0⟩

/-- Core exact-match lookup, `Darts::DoubleArray::exactMatchSearch<int>`.
Modelled from the spec: returns the stored value of the key, or the
NotFound marker `-1` when the byte path or the terminal sentinel is
absent (spec §4.2; the binding in `dictionary.cpp` line 119 returns this
int unchanged). -/
def exactMatchSearch (d : DartsDict) (key : ByteStr) : Int :=
  (d.entries.lookup key).getD (-1)

/-- Core common-prefix enumeration,
`Darts::DoubleArray::commonPrefixSearch<int>`.  Modelled from the spec:
the values of every nonempty prefix of `key` that is itself a stored
key, in increasing prefix-length order, truncated to at most
`maxResults` entries (spec §4.2: the cap stops enumeration early and is
not an error). -/
def commonPrefixSearch (d : DartsDict) (key : ByteStr) (maxResults : Nat) : List Int :=
  ((List.range key.length).filterMap (fun i => d.entries.lookup (key.take (i + 1)))).take maxResults

/-- Does the trie contain a node for prefix `p`?  In the packed array a
node exists for `p` exactly when `p` is a (byte) prefix of some stored
key. -/
def nodeExists (d : DartsDict) (p : ByteStr) : Bool :=
  d.entries.any (fun e => List.isPrefixOf p e.1)

/-- One step of `Darts::DoubleArray::traverse`.  Modelled from the spec:
the step advances exactly one byte from key position `keyPos` and
reports one of terminal-with-value (the stored value, `≥ 0`), ordinary
transition (`-1`, the node exists but holds no value), or
no-such-transition (`-2`, the negative sentinel) (spec §4.2, §9, with
the customary darts int encoding used by the binding's `result < 0`
test). -/
def traverseStep (d : DartsDict) (key : ByteStr) (keyPos : Nat) : Int :=
  match d.entries.lookup (key.take (keyPos + 1)) with
  | some v => v
  | none => if nodeExists d (key.take (keyPos + 1)) then -1 else -2

/-- The body of the traverse loop of `dictionary.cpp` (`Traverse`,
lines 182-212), with an explicit fuel counter bounding the remaining
iterations (the loop advances `key_pos` by one per iteration, so
`key.length - keyPos` iterations remain): while the key position is in
range, step one byte, record `(key position, step result)`, invoke the
callback, and stop when the callback returns `false` or the step result
is negative, else advance to the next byte. -/
def traverseLoopAux (d : DartsDict) (key : ByteStr) (cb : Nat → Int → Bool) :
    Nat → Nat → List (Nat × Int)
  | _, 0 => []
  | keyPos, fuel + 1 =>
    if keyPos < key.length then
      if cb keyPos (traverseStep d key keyPos) = false ∨ traverseStep d key keyPos < 0 then
        [(keyPos, traverseStep d key keyPos)]
      else (keyPos, traverseStep d key keyPos) :: traverseLoopAux d key cb (keyPos + 1) fuel
    else []

/-- The traverse loop of `dictionary.cpp`, started at `keyPos`. -/
def traverseLoop (d : DartsDict) (key : ByteStr) (cb : Nat → Int → Bool) (keyPos : Nat) :
    List (Nat × Int) :=
  traverseLoopAux d key cb keyPos (key.length - keyPos)

/-- The final step's outcome of the binding's traverse loop over the
whole key with an always-continue callback (`none` when the key is
empty and the loop never runs). -/
def lastOutcome (d : DartsDict) (key : ByteStr) : Option Int :=
  (traverseLoop d key (fun _ _ => true) 0).getLast?.map Prod.snd

/-- The core invocation step of `Build` (`builder.cpp` lines 87-95):
`dict->build(...)` followed by the mapping of a nonzero result to the
binding's `"Failed to build dictionary"` error (with the partial
instance deleted). -/
def coreOrFail (ks : List ByteStr) (vs : List Int) : Except String DartsDict :=
  match dartsBuild ks vs with
  | .error _ => .error "Failed to build dictionary"
  | .ok d => .ok d

/-- The `Build` binding (`builder.cpp`): reject an empty key array, sort
and dedup the keys, check the supplied values against the deduplicated
key count (or default values to the 0-based index), invoke the core
build, and map a core failure to `"Failed to build dictionary"`. -/
def Build (keys : List ByteStr) (valuesArg : Option (List Int)) : Except String DartsDict :=
  if keys.length = 0 then .error "Empty keys array"
  else
    match valuesArg with
    | some vs =>
      if vs.length ≠ (sortDedup keys).length then
        .error "Values array length must match keys array length"
      else coreOrFail (sortDedup keys) vs
    | none => coreOrFail (sortDedup keys) ((List.range (sortDedup keys).length).map Int.ofNat)

/-- The global handle table `g_dictionaries` of `bindings.cpp`: a
vector of slots, each holding a live instance or `null`. -/
abbrev HandleTable := List (Option DartsDict)

/-- `GetDictionaryFromHandle` (`bindings.cpp` lines 21-26): the slot's
instance when the handle is in range and the slot is non-null, else
null. -/
def getDictionaryFromHandle (g : HandleTable) (handle : Nat) : Option DartsDict :=
  g.getD handle none

/-- `AddDictionary` (`bindings.cpp` lines 28-40): store the instance in
the first empty slot, appending a new slot when none is empty; returns
the chosen index together with the updated table. -/
def addDictionary (g : HandleTable) (d : DartsDict) : Nat × HandleTable :=
  match g with
  | [] => (0, [some d])
  | none :: rest => (0, some d :: rest)
  | some e :: rest =>
    let r := addDictionary rest d
    (r.1 + 1, some e :: r.2)

/-- `RemoveDictionary` (`bindings.cpp` lines 42-47): when the handle is
in range and the slot is non-null, free the instance and null the slot;
otherwise do nothing. -/
def removeDictionary (g : HandleTable) (handle : Nat) : HandleTable :=
  if (getDictionaryFromHandle g handle).isSome then g.set handle none else g

/-- The condition under which `RemoveDictionary` executes `delete` on
the slot's instance (`bindings.cpp` lines 43-44). -/
def removeFreesInstance (g : HandleTable) (handle : Nat) : Bool :=
  (getDictionaryFromHandle g handle).isSome

/-- The `Build` entry point seen at the handle-table level
(`builder.cpp` lines 86-98): on core success the instance is published
through `AddDictionary` and its handle returned; on any failure the
error is raised, the partial instance is dropped, and the table is
untouched. -/
def BuildOp (g : HandleTable) (keys : List ByteStr) (valuesArg : Option (List Int)) :
    Except String Nat × HandleTable :=
  match Build keys valuesArg with
  | .error e => (.error e, g)
  | .ok d =>
    let r := addDictionary g d
    (.ok r.1, r.2)

/-- `LoadDictionary` (`dictionary.cpp` lines 39-68) at the handle-table
level.  The filesystem and the missing core `open` are modelled from
the spec as `fs`, mapping a path to the dictionary decoded from the
file, or `none` on any I/O or format failure (spec §4.2 save/load, §6):
an invalid handle raises `"Invalid dictionary handle"`, a failed read
raises `"Failed to load dictionary"` with the instance unchanged, and a
successful read replaces the slot's instance in place. -/
def LoadOp (fs : String → Option DartsDict) (g : HandleTable) (handle : Nat)
    (path : String) : Except String Bool × HandleTable :=
  match getDictionaryFromHandle g handle with
  | none => (.error "Invalid dictionary handle", g)
  | some _ =>
    match fs path with
    | none => (.error "Failed to load dictionary", g)
    | some d => (.ok true, g.set handle (some d))

/-- `SaveDictionary` (`dictionary.cpp` lines 70-99).  The filesystem
write is modelled from the spec as the predicate `fsOk` on the path
(spec §4.2: `save` fails only with an I/O error); the handle table is
never modified. -/
def SaveOp (fsOk : String → Bool) (g : HandleTable) (handle : Nat) (path : String) :
    Except String Bool :=
  match getDictionaryFromHandle g handle with
  | none => .error "Invalid dictionary handle"
  | some _ => if fsOk path then .ok true else .error "Failed to save dictionary"

/-- `ExactMatchSearch` (`dictionary.cpp` lines 101-126): validate the
handle, then return the core search result unchanged. -/
def ExactMatchSearchOp (g : HandleTable) (handle : Nat) (key : ByteStr) :
    Except String Int :=
  match getDictionaryFromHandle g handle with
  | none => .error "Invalid dictionary handle"
  | some d => .ok (exactMatchSearch d key)

/-- `CommonPrefixSearch` (`dictionary.cpp` lines 128-162): validate the
handle, then return the core enumeration capped at the binding's
`MAX_RESULTS = 100`. -/
def CommonPrefixSearchOp (g : HandleTable) (handle : Nat) (key : ByteStr) :
    Except String (List Int) :=
  match getDictionaryFromHandle g handle with
  | none => .error "Invalid dictionary handle"
  | some d => .ok (commonPrefixSearch d key 100)

/-- `Traverse` (`dictionary.cpp` lines 164-222): validate the handle,
then run the traverse loop from position 0 with the caller's callback,
returning the recorded steps. -/
def TraverseOp (g : HandleTable) (handle : Nat) (key : ByteStr) (cb : Nat → Int → Bool) :
    Except String (List (Nat × Int)) :=
  match getDictionaryFromHandle g handle with
  | none => .error "Invalid dictionary handle"
  | some d => .ok (traverseLoop d key cb 0)

/-- `Size` (`dictionary.cpp` lines 224-244): validate the handle, then
return the core's `size()`, the packed array's unit count. -/
def SizeOp (g : HandleTable) (handle : Nat) : Except String Nat :=
  match getDictionaryFromHandle g handle with
  | none => .error "Invalid dictionary handle"
  | some d => .ok d.unitCount

/-! ### Order lemmas for the byte-lexicographic comparison -/

theorem bsLt_irrefl : ∀ (a : ByteStr), bsLt a a = false
  | [] => rfl
  | a :: as => by simp [bsLt, Nat.lt_irrefl, bsLt_irrefl as]

theorem bsLt_cons_iff {a b : Nat} {as bs : ByteStr} :
    bsLt (a :: as) (b :: bs) = true ↔ a < b ∨ (a = b ∧ bsLt as bs = true) := by
  rcases Nat.lt_trichotomy a b with h | h | h
  · simp [bsLt, h]
  · subst h
    simp [bsLt, Nat.lt_irrefl]
  · simp only [bsLt, if_neg (Nat.lt_asymm h), if_pos h]
    constructor
    · intro hf; cases hf
    · rintro (hf | ⟨rfl, -⟩)
      · omega
      · omega

theorem bsLt_asymm : ∀ (a b : ByteStr), bsLt a b = true → bsLt b a = false
  | [], [], h => by simp [bsLt]
  | [], _ :: _, _ => rfl
  | _ :: _, [], h => by simp [bsLt] at h
  | a :: as, b :: bs, h => by
    rw [bsLt_cons_iff] at h
    rcases h with h | ⟨rfl, h⟩
    · simp [bsLt, Nat.lt_asymm h, Nat.ne_of_lt h, h]
    · simp [bsLt, Nat.lt_irrefl, bsLt_asymm as bs h]

theorem bsLt_conn : ∀ (a b : ByteStr), bsLt a b = false → bsLt b a = false → a = b
  | [], [], _, _ => rfl
  | [], _ :: _, h1, _ => by simp [bsLt] at h1
  | _ :: _, [], _, h2 => by simp [bsLt] at h2
  | a :: as, b :: bs, h1, h2 => by
    rcases Nat.lt_trichotomy a b with h | h | h
    · rw [show bsLt (a :: as) (b :: bs) = true from bsLt_cons_iff.mpr (Or.inl h)] at h1
      cases h1
    · subst h
      simp only [bsLt, Nat.lt_irrefl, if_false] at h1 h2
      rw [bsLt_conn as bs h1 h2]
    · rw [show bsLt (b :: bs) (a :: as) = true from bsLt_cons_iff.mpr (Or.inl h)] at h2
      cases h2

theorem bsLt_trans : ∀ (a b c : ByteStr), bsLt a b = true → bsLt b c = true → bsLt a c = true
  | a, [], _, h1, _ => by cases a <;> simp [bsLt] at h1
  | _, _ :: _, [], _, h2 => by simp [bsLt] at h2
  | [], _ :: _, _ :: _, _, _ => rfl
  | x :: xs, y :: ys, z :: zs, h1, h2 => by
    rw [bsLt_cons_iff] at h1 h2 ⊢
    rcases h1 with h1 | ⟨rfl, h1⟩
    · rcases h2 with h2 | ⟨rfl, h2⟩
      · exact Or.inl (Nat.lt_trans h1 h2)
      · exact Or.inl h1
    · rcases h2 with h2 | ⟨rfl, h2⟩
      · exact Or.inl h2
      · exact Or.inr ⟨rfl, bsLt_trans xs ys zs h1 h2⟩

theorem bsLe_total (a b : ByteStr) (h : bsLe a b = false) : bsLe b a = true := by
  unfold bsLe at h ⊢
  rcases hba : bsLt b a with _ | _
  · rw [hba] at h; cases h
  · rw [bsLt_asymm b a hba]; rfl

theorem bsLt_of_le_of_ne (a b : ByteStr) (hle : bsLe a b = true) (hne : a ≠ b) :
    bsLt a b = true := by
  unfold bsLe at hle
  rcases hab : bsLt a b with _ | _
  · rcases hba : bsLt b a with _ | _
    · exact absurd (bsLt_conn a b hab hba) hne
    · rw [hba] at hle; cases hle
  · rfl

instance : IsTrans ByteStr (fun a b => bsLt a b = true) := ⟨fun a b c => bsLt_trans a b c⟩

/-! ### Sortedness of the `Build` preprocessing -/

theorem insertLe_head (k : ByteStr) (l : List ByteStr) :
    (insertLe k l).head? = some k ∨ ((insertLe k l).head? = l.head? ∧ l ≠ []) := by
  cases l with
  | nil => exact Or.inl rfl
  | cons x xs =>
    by_cases h : bsLe k x = true
    · simp [insertLe, h]
    · refine Or.inr ⟨?_, by simp⟩
      simp [insertLe, h]

theorem chain'_insertLe (k : ByteStr) :
    ∀ (l : List ByteStr), List.Chain' (fun a b => bsLe a b = true) l →
      List.Chain' (fun a b => bsLe a b = true) (insertLe k l)
  | [], _ => by simp [insertLe]
  | x :: xs, h => by
    by_cases hkx : bsLe k x = true
    · rw [show insertLe k (x :: xs) = k :: x :: xs by simp [insertLe, hkx]]
      exact List.chain'_cons.mpr ⟨hkx, h⟩
    · rw [show insertLe k (x :: xs) = x :: insertLe k xs by simp [insertLe, hkx]]
      rw [List.chain'_cons']
      refine ⟨?_, chain'_insertLe k xs h.tail⟩
      intro y hy
      rcases insertLe_head k xs with hh | ⟨hh, hne⟩
      · rw [hh] at hy
        cases hy
        exact bsLe_total k x (by simpa using hkx)
      · rw [hh] at hy
        rcases xs with _ | ⟨x', xs'⟩
        · cases hy
        · cases hy
          exact (List.chain'_cons.mp h).1

theorem chain'_sortKeys (l : List ByteStr) :
    List.Chain' (fun a b => bsLe a b = true) (sortKeys l) := by
  induction l with
  | nil => simp [sortKeys]
  | cons a l ih => exact chain'_insertLe a (sortKeys l) ih

theorem uniqueAdj_head : ∀ (y : ByteStr) (rest : List ByteStr),
    (uniqueAdj (y :: rest)).head? = some y
  | _, [] => rfl
  | y, z :: rest => by
    by_cases h : y = z
    · subst h
      rw [show uniqueAdj (y :: y :: rest) = uniqueAdj (y :: rest) by simp [uniqueAdj]]
      exact uniqueAdj_head y rest
    · simp [uniqueAdj, h]

theorem chain'_uniqueAdj : ∀ (l : List ByteStr),
    List.Chain' (fun a b => bsLe a b = true) l →
    List.Chain' (fun a b => bsLt a b = true) (uniqueAdj l)
  | [], _ => by simp [uniqueAdj]
  | [x], _ => by simp [uniqueAdj]
  | x :: y :: rest, h => by
    have hxy := (List.chain'_cons.mp h).1
    have htail := (List.chain'_cons.mp h).2
    by_cases heq : x = y
    · rw [show uniqueAdj (x :: y :: rest) = uniqueAdj (y :: rest) by simp [uniqueAdj, heq]]
      exact chain'_uniqueAdj (y :: rest) htail
    · rw [show uniqueAdj (x :: y :: rest) = x :: uniqueAdj (y :: rest) by simp [uniqueAdj, heq]]
      rw [List.chain'_cons']
      refine ⟨?_, chain'_uniqueAdj (y :: rest) htail⟩
      intro z hz
      rw [uniqueAdj_head y rest] at hz
      cases hz
      exact bsLt_of_le_of_ne x y hxy heq

theorem sortDedup_pairwise (l : List ByteStr) :
    (sortDedup l).Pairwise (fun a b => bsLt a b = true) :=
  List.chain'_iff_pairwise.mp (chain'_uniqueAdj (sortKeys l) (chain'_sortKeys l))

theorem sortDedup_pairwise_ne (l : List ByteStr) :
    (sortDedup l).Pairwise (fun a b => a ≠ b) :=
  (sortDedup_pairwise l).imp (fun hlt heq => by
    subst heq
    rw [bsLt_irrefl] at hlt
    cases hlt)

/-! ### Lookup in zipped entry lists -/

theorem lookup_zip_of_pairwise :
    ∀ (l : List ByteStr) (vs : List Int), l.Pairwise (fun a b => a ≠ b) →
      ∀ (i : Nat) (hi : i < l.length) (hv : i < vs.length),
        (l.zip vs).lookup (l.get ⟨i, hi⟩) = some (vs.get ⟨i, hv⟩)
  | [], _, _, i, hi, _ => absurd hi (by simp)
  | _ :: _, [], _, i, _, hv => absurd hv (by simp)
  | x :: xs, v :: vt, hp, 0, hi, hv => by
    simp [List.lookup]
  | x :: xs, v :: vt, hp, i + 1, hi, hv => by
    have hmem : xs.get ⟨i, by simpa using hi⟩ ∈ xs := List.get_mem _ _ _
    have hne : x ≠ xs.get ⟨i, by simpa using hi⟩ :=
      (List.pairwise_cons.mp hp).1 _ hmem
    have hbeq : (xs.get ⟨i, by simpa using hi⟩ == x) = false :=
      beq_eq_false_iff_ne.mpr (fun h => hne h.symm)
    simp only [List.zip_cons_cons, List.get_cons_succ, List.lookup, hbeq]
    exact lookup_zip_of_pairwise xs vt (List.pairwise_cons.mp hp).2 i _ _

/-! ### Extraction lemmas for `Build` -/

theorem dartsBuild_ok_entries {ks : List ByteStr} {vs : List Int} {d : DartsDict}
    (h : dartsBuild ks vs = .ok d) : d.entries = ks.zip vs := by
  unfold dartsBuild at h
  split_ifs at h
  cases h
  rfl

theorem coreOrFail_ok {ks : List ByteStr} {vs : List Int} {d : DartsDict}
    (h : coreOrFail ks vs = .ok d) : dartsBuild ks vs = .ok d := by
  unfold coreOrFail at h
  rcases hd : dartsBuild ks vs with e | d'
  · rw [hd] at h; cases h
  · rw [hd] at h; cases h; rfl

theorem build_none_entries {keys : List ByteStr} {d : DartsDict}
    (h : Build keys none = .ok d) :
    d.entries = (sortDedup keys).zip
      ((List.range (sortDedup keys).length).map Int.ofNat) := by
  unfold Build at h
  split_ifs at h
  exact dartsBuild_ok_entries (coreOrFail_ok h)

theorem build_some_entries {keys : List ByteStr} {vs : List Int} {d : DartsDict}
    (h : Build keys (some vs) = .ok d) :
    d.entries = (sortDedup keys).zip vs := by
  unfold Build at h
  split_ifs at h
  dsimp only at h
  split_ifs at h
  exact dartsBuild_ok_entries (coreOrFail_ok h)

/-! ### Handle-table lemmas -/

theorem getD_set_none : ∀ (l : HandleTable) (n : Nat),
    (l.set n none).getD n none = none
  | [], _ => rfl
  | _ :: _, 0 => rfl
  | _ :: t, n + 1 => by
    simpa [List.getD_cons_succ] using getD_set_none t n

/-! ### The traverse loop's final outcome -/

theorem traverseLoopAux_getLast (d : DartsDict) (key : ByteStr) :
    ∀ (fuel pos : Nat), fuel = key.length - pos → pos < key.length →
    (∀ j, pos ≤ j → j < key.length → 0 ≤ traverseStep d key j) →
    (traverseLoopAux d key (fun _ _ => true) pos fuel).getLast?.map Prod.snd =
      some (traverseStep d key (key.length - 1))
  | 0, pos, hf, hp, _ => absurd hf (by omega)
  | fuel + 1, pos, hf, hp, hs => by
    have hr : 0 ≤ traverseStep d key pos := hs pos le_rfl hp
    rw [traverseLoopAux, if_pos hp, if_neg (by simp; omega)]
    by_cases hnext : pos + 1 < key.length
    · have ih := traverseLoopAux_getLast d key fuel (pos + 1) (by omega) hnext
        (fun j hj1 hj2 => hs j (by omega) hj2)
      cases hl : traverseLoopAux d key (fun _ _ => true) (pos + 1) fuel with
      | nil => rw [hl] at ih; simp at ih
      | cons b l' =>
        rw [hl] at ih
        rw [List.getLast?_cons_cons]
        exact ih
    · have hfuel : fuel = 0 := by omega
      subst hfuel
      have : pos = key.length - 1 := by omega
      simp [traverseLoopAux, this]

theorem traverseLoop_getLast (d : DartsDict) (key : ByteStr) (pos : Nat)
    (hp : pos < key.length)
    (hs : ∀ j, pos ≤ j → j < key.length → 0 ≤ traverseStep d key j) :
    (traverseLoop d key (fun _ _ => true) pos).getLast?.map Prod.snd =
      some (traverseStep d key (key.length - 1)) :=
  traverseLoopAux_getLast d key (key.length - pos) pos rfl hp hs

/-! ### Claim theorems -/

/-- C1 counterexample: building from the keys `["a", "a", "b"]` together
with the values `[1, 2, 3]` DOES fail, contrary to the claim: `Build`
in `builder.cpp` deduplicates the keys first (leaving 2 keys) and only
then compares the values count (3) against the deduplicated key count,
raising `"Values array length must match keys array length"`. -/
theorem c1_duplicate_values_fail :
    Build [[97], [97], [98]] (some [1, 2, 3]) =
      .error "Values array length must match keys array length" := rfl

/-- C1 (amended): building from `["a", "a", "b"]` with values
`[1, 2, 3]` fails with the values-length-mismatch error, because dedup
leaves 2 keys while 3 values were supplied; the same keys without a
values array build successfully, and `exactMatchSearch` then resolves
`"a"` to exactly one deterministic value, its 0-based sorted rank 0
(and `"b"` to 1). -/
theorem c1_duplicate_handling_amended :
    Build [[97], [97], [98]] (some [1, 2, 3]) =
      .error "Values array length must match keys array length" ∧
    (Build [[97], [97], [98]] none).map (fun d => exactMatchSearch d [97]) = .ok 0 ∧
    (Build [[97], [97], [98]] none).map (fun d => exactMatchSearch d [98]) = .ok 1 :=
  ⟨rfl, rfl, rfl⟩

/-- C2 counterexample: in the dictionary built from the single key
`"ab"`, the key `"ab"` is stored with value 0 and `exactMatchSearch`
returns 0, but the binding's traverse loop stops after the first byte
(the intermediate node for `"a"` is no terminal, so that step's outcome
is the negative no-value marker `-1` and the loop's `result < 0` test
fires); the final step's outcome is therefore `some (-1)`, not the
stored value 0. -/
theorem c2_traverse_mismatch :
    (Build [[97, 98]] none).map
      (fun d => ((d.entries.lookup [97, 98]).isSome, lastOutcome d [97, 98],
        exactMatchSearch d [97, 98])) = .ok (true, some (-1), 0) ∧
    some (-1 : Int) ≠ some (0 : Int) :=
  ⟨rfl, by decide⟩

/-- C2 (amended): for a nonempty key each of whose nonempty prefixes
(itself included) is stored with a nonnegative value, stepping the
binding's traverse loop one byte at a time over the full key and
keeping only the final step's outcome agrees with `exactMatchSearch` on
the whole key; in general the loop stops at the first step whose
outcome is negative, so the equivalence requires every proper prefix to
be stored as well. -/
theorem c2_traverse_equiv_amended (d : DartsDict) (key : ByteStr)
    (hlen : 1 ≤ key.length)
    (hpref : ∀ i, i ≤ key.length → 1 ≤ i →
      0 ≤ (d.entries.lookup (key.take i)).getD (-1)) :
    lastOutcome d key = some (exactMatchSearch d key) := by
  have hsteps : ∀ j, 0 ≤ j → j < key.length → 0 ≤ traverseStep d key j := by
    intro j _ hj
    have h := hpref (j + 1) (by omega) (by omega)
    unfold traverseStep
    cases hl : d.entries.lookup (key.take (j + 1)) with
    | none => rw [hl] at h; simp at h
    | some v => rw [hl] at h; simpa using h
  unfold lastOutcome
  rw [traverseLoop_getLast d key 0 (by omega) hsteps]
  congr 1
  have hfull := hpref key.length le_rfl hlen
  rw [List.take_length] at hfull
  unfold traverseStep exactMatchSearch
  rw [show key.length - 1 + 1 = key.length by omega, List.take_length]
  cases hl : d.entries.lookup key with
  | none => rw [hl] at hfull; simp at hfull
  | some v => simp

/-- C2 witness: the amended equivalence applied to the dictionary
storing `"a" ↦ 0` and `"ab" ↦ 1` with key `"ab"`: every nonempty prefix
of `"ab"` is stored, and the loop's final outcome equals
`exactMatchSearch`. -/
theorem c2_traverse_equiv_amended_witness :
    lastOutcome ⟨[([97], 0), ([97, 98], 1)], 6⟩ [97, 98] =
      some (exactMatchSearch ⟨[([97], 0), ([97, 98], 1)], 6⟩ [97, 98]) :=
  c2_traverse_equiv_amended ⟨[([97], 0), ([97, 98], 1)], 6⟩ [97, 98]
    (by decide) (by decide)

/-- C3: the core `commonPrefixSearch` takes a `maxResults` bound and
its result never exceeds it (the enumeration is truncated, not an
error); in particular on the key set `{"a" ↦ 1, "ab" ↦ 2, "abc" ↦ 3}`
built through the binding, searching `"abc"` with `maxResults = 1`
returns exactly `[1]`. -/
theorem c3_maxResults_cap :
    (∀ (d : DartsDict) (key : ByteStr) (maxResults : Nat),
      (commonPrefixSearch d key maxResults).length ≤ maxResults) ∧
    (Build [[97], [97, 98], [97, 98, 99]] (some [1, 2, 3])).map
      (fun d => commonPrefixSearch d [97, 98, 99] 1) = .ok [1] :=
  ⟨fun d key m => by
    unfold commonPrefixSearch
    exact List.length_take_le m _, rfl⟩

/-- C4: when `Build` is invoked without a values array, values default
to the key's 0-based rank in the sorted, deduplicated key order:
`exactMatchSearch` on the `i`-th key of the sorted deduplicated
sequence returns `i`. -/
theorem c4_default_values_rank (keys : List ByteStr) (d : DartsDict)
    (hb : Build keys none = .ok d) (i : Nat)
    (hi : i < (sortDedup keys).length) :
    exactMatchSearch d ((sortDedup keys).get ⟨i, hi⟩) = i := by
  have he := build_none_entries hb
  have hp := sortDedup_pairwise_ne keys
  have hv : i < ((List.range (sortDedup keys).length).map Int.ofNat).length := by
    simpa using hi
  rw [exactMatchSearch, he, lookup_zip_of_pairwise _ _ hp i hi hv]
  simp [List.get_eq_getElem]

/-- C4 witness: building from the unsorted keys `["b", "a"]` without
values yields the dictionary `{"a" ↦ 0, "b" ↦ 1}`, and the search on
the 0th and 1st sorted keys returns 0 and 1. -/
theorem c4_default_values_rank_witness :
    exactMatchSearch ⟨[([97], 0), ([98], 1)], 5⟩
        ((sortDedup [[98], [97]]).get ⟨0, by decide⟩) = 0 ∧
    exactMatchSearch ⟨[([97], 0), ([98], 1)], 5⟩
        ((sortDedup [[98], [97]]).get ⟨1, by decide⟩) = 1 :=
  ⟨c4_default_values_rank [[98], [97]] ⟨[([97], 0), ([98], 1)], 5⟩ rfl 0 (by decide),
   c4_default_values_rank [[98], [97]] ⟨[([97], 0), ([98], 1)], 5⟩ rfl 1 (by decide)⟩

/-- C5: calling `Build` with an empty keys array always fails with the
`"Empty keys array"` error, no handle is returned, and the handle table
is left exactly as it was (no dictionary instance is produced). -/
theorem c5_empty_keys_rejected :
    ∀ (g : HandleTable) (valuesArg : Option (List Int)),
      BuildOp g [] valuesArg = (.error "Empty keys array", g) := by
  intro g valuesArg
  rfl

/-- C6: `Build` is atomic at the handle-table level: whenever the build
fails — for any reason, including a failing core construction — the
error is propagated, no handle is returned, and the handle table is
left exactly as it was before the call (the instance is never
published; `builder.cpp` deletes the partial instance and throws before
reaching `AddDictionary`). -/
theorem c6_build_atomic :
    ∀ (g : HandleTable) (keys : List ByteStr) (valuesArg : Option (List Int)) (e : String),
      Build keys valuesArg = .error e → BuildOp g keys valuesArg = (.error e, g) := by
  intro g keys valuesArg e h
  unfold BuildOp
  rw [h]

/-- C6 witness: a failing build (empty key set) on the empty handle
table returns the error and the unchanged table. -/
theorem c6_build_atomic_witness :
    BuildOp [] [] none = (.error "Empty keys array", []) :=
  c6_build_atomic [] [] none "Empty keys array" rfl

/-- C7: every operation routed through `GetDictionaryFromHandle` —
load, save, exactMatchSearch, commonPrefixSearch, traverse and size —
fails with the `"Invalid dictionary handle"` error on a handle that
refers to no live instance (never allocated or already disposed), and
the handle table is left unchanged. -/
theorem c7_invalid_handle_ops :
    ∀ (g : HandleTable) (handle : Nat) (fs : String → Option DartsDict)
      (fsOk : String → Bool) (key : ByteStr) (path : String) (cb : Nat → Int → Bool),
      getDictionaryFromHandle g handle = none →
      LoadOp fs g handle path = (.error "Invalid dictionary handle", g) ∧
      SaveOp fsOk g handle path = .error "Invalid dictionary handle" ∧
      ExactMatchSearchOp g handle key = .error "Invalid dictionary handle" ∧
      CommonPrefixSearchOp g handle key = .error "Invalid dictionary handle" ∧
      TraverseOp g handle key cb = .error "Invalid dictionary handle" ∧
      SizeOp g handle = .error "Invalid dictionary handle" := by
  intro g handle fs fsOk key path cb hg
  unfold LoadOp SaveOp ExactMatchSearchOp CommonPrefixSearchOp TraverseOp SizeOp
  rw [hg]
  exact ⟨rfl, rfl, rfl, rfl, rfl, rfl⟩

/-- C7 witness: on the empty handle table, handle 0 refers to no live
instance and all six operations fail with the invalid-handle error,
leaving the table unchanged. -/
theorem c7_invalid_handle_ops_witness :
    LoadOp (fun _ => none) [] 0 "" = (.error "Invalid dictionary handle", []) ∧
    SaveOp (fun _ => true) [] 0 "" = .error "Invalid dictionary handle" ∧
    ExactMatchSearchOp [] 0 [97] = .error "Invalid dictionary handle" ∧
    CommonPrefixSearchOp [] 0 [97] = .error "Invalid dictionary handle" ∧
    TraverseOp [] 0 [97] (fun _ _ => true) = .error "Invalid dictionary handle" ∧
    SizeOp [] 0 = .error "Invalid dictionary handle" :=
  c7_invalid_handle_ops [] 0 (fun _ => none) (fun _ => true) [97] "" (fun _ _ => true) rfl

/-- C8: every instance is destroyed exactly once through the handle
table: on a live handle, `RemoveDictionary` frees the instance (the
`delete` branch is taken) and clears the slot; afterwards the same
handle resolves to no instance, a second `RemoveDictionary` is a no-op
leaving the table unchanged, and its `delete` branch is not taken, so
the instance is never freed twice. -/
theorem c8_destroy_once :
    ∀ (g : HandleTable) (handle : Nat) (d : DartsDict),
      getDictionaryFromHandle g handle = some d →
      removeDictionary g handle = g.set handle none ∧
      getDictionaryFromHandle (removeDictionary g handle) handle = none ∧
      removeDictionary (removeDictionary g handle) handle = removeDictionary g handle ∧
      removeFreesInstance g handle = true ∧
      removeFreesInstance (removeDictionary g handle) handle = false := by
  intro g handle d hg
  have h1 : removeDictionary g handle = g.set handle none := by
    unfold removeDictionary
    rw [hg]
    rfl
  have h2 : getDictionaryFromHandle (removeDictionary g handle) handle = none := by
    rw [h1]
    exact getD_set_none g handle
  refine ⟨h1, h2, ?_, ?_, ?_⟩
  · rw [h1]
    unfold removeDictionary
    rw [show getDictionaryFromHandle (g.set handle none) handle = none from
      getD_set_none g handle]
    rfl
  · unfold removeFreesInstance
    rw [hg]
    rfl
  · unfold removeFreesInstance
    rw [h2]
    rfl

/-- C8 witness: destroying the only live handle of a one-slot table
clears the slot; the second destroy is a no-op and does not free. -/
theorem c8_destroy_once_witness :
    removeDictionary [some ⟨[], 1⟩] 0 = ([some ⟨[], 1⟩] : HandleTable).set 0 none ∧
    getDictionaryFromHandle (removeDictionary [some ⟨[], 1⟩] 0) 0 = none ∧
    removeDictionary (removeDictionary [some ⟨[], 1⟩] 0) 0 = removeDictionary [some ⟨[], 1⟩] 0 ∧
    removeFreesInstance [some ⟨[], 1⟩] 0 = true ∧
    removeFreesInstance (removeDictionary [some ⟨[], 1⟩] 0) 0 = false :=
  c8_destroy_once [some ⟨[], 1⟩] 0 ⟨[], 1⟩ rfl

/-- C9: when the caller supplies both keys and values, `Build` first
sorts and deduplicates the keys and then pairs `values[i]` with the
`i`-th key of the sorted, deduplicated sequence; consequently for the
unsorted input `["b", "a"]` with values `[10, 20]`, the key `"a"` ends
up associated with 10 (the value at its sorted position), not with 20
(the value at its original position). -/
theorem c9_values_pair_sorted :
    (∀ (keys : List ByteStr) (vs : List Int) (d : DartsDict),
      Build keys (some vs) = .ok d → d.entries = (sortDedup keys).zip vs) ∧
    (Build [[98], [97]] (some [10, 20])).map (fun d => exactMatchSearch d [97]) = .ok 10 ∧
    (Build [[98], [97]] (some [10, 20])).map (fun d => exactMatchSearch d [98]) = .ok 20 :=
  ⟨fun _ _ _ h => build_some_entries h, rfl, rfl⟩

/-- C9 witness: the pairing law applied to the concrete build from
`["b", "a"]` with `[10, 20]`. -/
theorem c9_values_pair_sorted_witness :
    (⟨[([97], 10), ([98], 20)], 5⟩ : DartsDict).entries =
      (sortDedup [[98], [97]]).zip [10, 20] :=
  c9_values_pair_sorted.1 [[98], [97]] [10, 20] ⟨[([97], 10), ([98], 20)], 5⟩ rfl

/-- C10: `AddDictionary` stores the instance in the smallest empty slot
(appending only when no slot is empty, so the handle never exceeds the
old table length), and the returned handle immediately resolves to the
stored instance; every previously live handle still resolves to its own
instance and differs from the new handle, so two simultaneously live
instances always have distinct handles. -/
theorem c10_add_get_roundtrip :
    ∀ (g : HandleTable) (d : DartsDict),
      getDictionaryFromHandle (addDictionary g d).2 (addDictionary g d).1 = some d ∧
      (addDictionary g d).1 ≤ g.length ∧
      (∀ i, i < (addDictionary g d).1 → getDictionaryFromHandle g i ≠ none) ∧
      (∀ i e, getDictionaryFromHandle g i = some e →
        getDictionaryFromHandle (addDictionary g d).2 i = some e ∧
          i ≠ (addDictionary g d).1)
  | [], d => by
    refine ⟨rfl, le_rfl, ?_, ?_⟩
    · intro i hi
      simp [addDictionary] at hi
    · intro i e hg
      cases i <;> cases hg
  | none :: rest, d => by
    refine ⟨rfl, by simp [addDictionary], ?_, ?_⟩
    · intro i hi
      simp [addDictionary] at hi
    · intro i e hg
      cases i with
      | zero => cases hg
      | succ j => exact ⟨hg, by simp [addDictionary]⟩
  | some x :: rest, d => by
    have ih := c10_add_get_roundtrip rest d
    have heq1 : (addDictionary (some x :: rest) d).1 = (addDictionary rest d).1 + 1 := rfl
    have heq2 : (addDictionary (some x :: rest) d).2 = some x :: (addDictionary rest d).2 := rfl
    refine ⟨?_, ?_, ?_, ?_⟩
    · rw [heq1, heq2]
      simpa [getDictionaryFromHandle, List.getD_cons_succ] using ih.1
    · rw [heq1]
      simpa using Nat.succ_le_succ ih.2.1
    · intro i hi
      rw [heq1] at hi
      cases i with
      | zero => simp [getDictionaryFromHandle]
      | succ j =>
        have hj : j < (addDictionary rest d).1 := by omega
        simpa [getDictionaryFromHandle, List.getD_cons_succ] using ih.2.2.1 j hj
    · intro i e hg
      cases i with
      | zero =>
        have hx : some x = some e := by simpa [getDictionaryFromHandle] using hg
        cases hx
        rw [heq1, heq2]
        exact ⟨rfl, by omega⟩
      | succ j =>
        have hj : getDictionaryFromHandle rest j = some e := by
          simpa [getDictionaryFromHandle, List.getD_cons_succ] using hg
        have hres := ih.2.2.2 j e hj
        rw [heq1, heq2]
        refine ⟨?_, ?_⟩
        · simpa [getDictionaryFromHandle, List.getD_cons_succ] using hres.1
        · have hne := hres.2
          omega

/-- C10 witness: adding an instance to a table whose slot 0 is occupied
and slot 1 empty: the new handle is 1, it resolves to the new instance,
slot 0 still resolves to the old instance, and the handles differ. -/
theorem c10_add_get_roundtrip_witness :
    getDictionaryFromHandle (addDictionary [some ⟨[], 1⟩, none] ⟨[([97], 5)], 3⟩).2
      (addDictionary [some ⟨[], 1⟩, none] ⟨[([97], 5)], 3⟩).1 = some ⟨[([97], 5)], 3⟩ ∧
    getDictionaryFromHandle [some ⟨[], 1⟩, none] 0 ≠ none ∧
    getDictionaryFromHandle (addDictionary [some ⟨[], 1⟩, none] ⟨[([97], 5)], 3⟩).2 0 =
      some ⟨[], 1⟩ ∧
    (0 : Nat) ≠ (addDictionary [some ⟨[], 1⟩, none] ⟨[([97], 5)], 3⟩).1 :=
  ⟨(c10_add_get_roundtrip [some ⟨[], 1⟩, none] ⟨[([97], 5)], 3⟩).1,
   (c10_add_get_roundtrip [some ⟨[], 1⟩, none] ⟨[([97], 5)], 3⟩).2.2.1 0 (by decide),
   ((c10_add_get_roundtrip [some ⟨[], 1⟩, none] ⟨[([97], 5)], 3⟩).2.2.2 0 ⟨[], 1⟩ rfl).1,
   ((c10_add_get_roundtrip [some ⟨[], 1⟩, none] ⟨[([97], 5)], 3⟩).2.2.2 0 ⟨[], 1⟩ rfl).2⟩

end NodeDarts
